import Mathlib

/-!
Verification of the API-key validation and usage-accounting core of the
repository (a Next.js dashboard with two server routes backed by a Supabase
`api_keys` table).

The embedding follows the JavaScript sources:

* `src/app/api/validate-key/route.js` — the validation-only endpoint
  (`validatePOST` below);
* the GitHub-summarizer route (the gateway endpoint gating an action behind
  key validation and usage accounting, `gatewayPOST` below);
* `generateApiKey` and friends from `src/app/utils/githubSummarizerUtils.js`;
* the `api_keys` schema (SQL): `usage_limit` is a nullable INTEGER, `status`
  is one of 'active'/'inactive', `key_value` is UNIQUE.

Strings handled by the JS code are modelled as Lean `String`s / `List Char`;
JS `String.prototype.toLowerCase` is modelled per-character by
`Char.toLower` (for the characters relevant here — ASCII letters — the two
agree), `trim` by `jsTrim`, and `includes` by the substring search
`containsSeq`. Timestamps are `Nat`. The database is a list of records; the
Supabase call `.eq('key_value', k).eq('status','active').single()` is the
first record matching both filters (the UNIQUE constraint on `key_value`
in the schema rules out several matching rows).
-/

/-- A row of the `api_keys` table (schema in the SQL source).
`usage_limit` is nullable, hence `Option Nat`; `status` is stored as the
string the code compares against. -/
structure ApiKeyRecord where
  id : Nat
  name : String
  key_value : String
  status : String
  usage_count : Nat
  usage_limit : Option Nat
  created_at : Nat
  updated_at : Nat
  deriving Repr, DecidableEq

/-- The key store: the rows of the `api_keys` table. -/
abbrev KeyStore := List ApiKeyRecord

/-- A JSON body field as the route sees it after `await request.json()`:
absent, a string, or some non-string value. -/
inductive JsonField where
  | absent
  | str (s : String)
  | nonString
  deriving Repr, DecidableEq

/-- JS `String.prototype.trim()`: remove whitespace from both ends. -/
def jsTrim (s : String) : String :=
  ⟨((s.data.dropWhile Char.isWhitespace).reverse.dropWhile Char.isWhitespace).reverse⟩

/-- The JS gate `if (!x || typeof x !== 'string')` both routes apply to
their string fields: it passes exactly the non-empty strings (the empty
string is falsy in JS). Returns the string when the gate passes. -/
def jsFieldOkString : JsonField → Option String
  | .str s => if s = "" then none else some s
  | _ => none

/-- `.from('api_keys').select('*').eq('key_value', k).eq('status','active').single()`:
the row whose `key_value` equals `k` and whose `status` is `'active'`.
`single()` yields the `PGRST116` no-rows error — modelled by `none` — when no
row matches. -/
def lookupActive (store : KeyStore) (k : String) : Option ApiKeyRecord :=
  store.find? (fun r => r.key_value == k && r.status == "active")

/-- A database operation issued by a handler against the `api_keys` table. -/
inductive DbOp where
  | selectActive (key : String)
  | updateUsageCount (id : Nat) (newCount : Nat) (now : Nat)
  deriving Repr, DecidableEq

/-- Whether a database operation mutates the store. -/
def dbOpWrites : DbOp → Bool
  | .selectActive _ => false
  | .updateUsageCount _ _ _ => true

/-- `.update({usage_count: c, updated_at: now}).eq('id', rid)` applied to the
store. -/
def updateUsage (store : KeyStore) (rid : Nat) (c : Nat) (now : Nat) : KeyStore :=
  store.map (fun r => if r.id == rid then { r with usage_count := c, updated_at := now } else r)

/-- Effect of a database operation on the store. -/
def applyDbOp (store : KeyStore) : DbOp → KeyStore
  | .selectActive _ => store
  | .updateUsageCount rid c now => updateUsage store rid c now

/-- Effect of a sequence of database operations on the store. -/
def applyDbOps (store : KeyStore) : List DbOp → KeyStore
  | [] => store
  | op :: ops => applyDbOps (applyDbOp store op) ops

/-- The record data the validate-key route returns on success: every column
of the row except `key_value` (`// Note: key_value is intentionally excluded
for security`). -/
structure ValidatedData where
  id : Nat
  name : String
  status : String
  usage_count : Nat
  usage_limit : Option Nat
  created_at : Nat
  updated_at : Nat
  deriving Repr, DecidableEq

/-- Build the success payload of the validate-key route from the row. -/
def toValidatedData (r : ApiKeyRecord) : ValidatedData :=
  { id := r.id
    name := r.name
    status := r.status
    usage_count := r.usage_count
    usage_limit := r.usage_limit
    created_at := r.created_at
    updated_at := r.updated_at }

/-- Responses of the validate-key route, carrying the JSON body's content. -/
inductive ValidateResponse where
  /-- `{valid:false, error: msg}` with HTTP 400. -/
  | badRequest (msg : String)
  /-- `{valid:false, error:'Invalid API key'}` with HTTP 404 (the `PGRST116`
  branch: key nonexistent or not active). -/
  | notFound
  /-- `{valid:true, data: d}` with HTTP 200. -/
  | ok (d : ValidatedData)
  deriving Repr, DecidableEq

/-- HTTP status of a validate-key response. -/
def validateStatus : ValidateResponse → Nat
  | .badRequest _ => 400
  | .notFound => 404
  | .ok _ => 200

/-- The `valid` field of a validate-key response body. -/
def validateValidField : ValidateResponse → Bool
  | .ok _ => true
  | _ => false

/-- The POST handler of `src/app/api/validate-key/route.js`: input gate,
trim, lookup, and the success payload with `key_value` stripped. Besides the
response it returns the list of database operations it issued. -/
def validatePOST (apiKey : JsonField) (store : KeyStore) :
    ValidateResponse × List DbOp :=
  match jsFieldOkString apiKey with
  | none => (.badRequest "API key is required and must be a string", [])
  | some s =>
    let k := jsTrim s
    if k = "" then (.badRequest "API key cannot be empty", [])
    else
      match lookupActive store k with
      | none => (.notFound, [.selectActive k])
      | some r => (.ok (toValidatedData r), [.selectActive k])

/-- The GitHub-URL characters of the route's regex character class
`[\w\-._]` (JS `\w` is ASCII alphanumerics and underscore). -/
def isUrlWordChar (c : Char) : Bool :=
  c.isAlphanum || c == '_' || c == '-' || c == '.'

/-- Test of `/^https:\/\/github\.com\/[\w\-._]+\/[\w\-._]+/` on a string:
the literal head, a non-empty run of word characters, a slash, and another
non-empty run; anything may follow (the regex is unanchored at the end).
Since the character class excludes `/`, greedy matching is the maximal
run, so `takeWhile`/`dropWhile` are a faithful rendering. -/
def githubUrlPatternTest (s : String) : Bool :=
  let head := "https://github.com/".toList
  let l := s.toList
  if head.isPrefixOf l then
    let rest := l.drop head.length
    let seg1 := rest.takeWhile isUrlWordChar
    match rest.dropWhile isUrlWordChar with
    | '/' :: rest2 => !seg1.isEmpty && !(rest2.takeWhile isUrlWordChar).isEmpty
    | _ => false
  else false

/-- The limit check of the gateway route, STEP 7:
`if (apiKeyData.usage_limit && apiKeyData.usage_count >= apiKeyData.usage_limit)`.
A `null` or `0` limit is falsy in JS, so the conjunction short-circuits to
false and the check is skipped. -/
def limitCheck (r : ApiKeyRecord) : Bool :=
  match r.usage_limit with
  | none => false
  | some l => if l = 0 then false else decide (l ≤ r.usage_count)

/-- Responses of the gateway (GitHub-summarizer) route, carrying the JSON
body's content relevant to the claims. -/
inductive GatewayResponse where
  /-- `{success:false, error: msg}` with HTTP 400. -/
  | badRequest (msg : String)
  /-- `{success:false, error:'Invalid API key'}` with HTTP 401. -/
  | unauthorized
  /-- `{success:false, error:'API key usage limit exceeded'}` with HTTP 429. -/
  | rateLimited
  /-- `{success:true, data:{repository, …, processed_by}, usage:{current, limit}}`
  with HTTP 200. -/
  | ok (processedBy : String) (repository : String) (current : Nat) (lim : Option Nat)
  deriving Repr, DecidableEq

/-- HTTP status of a gateway response. -/
def gatewayStatus : GatewayResponse → Nat
  | .badRequest _ => 400
  | .unauthorized => 401
  | .rateLimited => 429
  | .ok _ _ _ _ => 200

/-- The POST handler of the GitHub-summarizer route. Steps in source order:
input gates on `apiKey` and `githubUrl`, trimming, the active-key lookup,
the limit check, the URL-format check, the placeholder summary, the
usage-count update, and the success response. `updateOk` models whether the
Supabase update call succeeds (on failure the route logs and continues:
`// Continue execution even if usage count update fails`); `now` models
`new Date().toISOString()`. Returns the response and the resulting store. -/
def gatewayPOST (apiKey githubUrl : JsonField) (store : KeyStore)
    (updateOk : Bool) (now : Nat) : GatewayResponse × KeyStore :=
  match jsFieldOkString apiKey with
  | none => (.badRequest "API key is required and must be a string", store)
  | some a =>
    match jsFieldOkString githubUrl with
    | none => (.badRequest "GitHub URL is required and must be a string", store)
    | some g =>
      let ta := jsTrim a
      let tg := jsTrim g
      if ta = "" then (.badRequest "API key cannot be empty", store)
      else if tg = "" then (.badRequest "GitHub URL cannot be empty", store)
      else
        match lookupActive store ta with
        | none => (.unauthorized, store)
        | some r =>
          if limitCheck r then (.rateLimited, store)
          else if !githubUrlPatternTest tg then
            (.badRequest "Invalid GitHub URL format. Must be a valid GitHub repository URL.", store)
          else
            let store' := if updateOk then updateUsage store r.id (r.usage_count + 1) now else store
            (.ok r.name tg (r.usage_count + 1) r.usage_limit, store')

/-- JS `String.prototype.includes(target)` on character lists: does `target`
occur as a contiguous run starting at the head? (helper for `containsSeq`). -/
def leadsWith : List Char → List Char → Bool
  | _, [] => true
  | [], _ :: _ => false
  | c :: cs, d :: ds => c == d && leadsWith cs ds

/-- JS `String.prototype.includes(target)`: does `target` occur as a
contiguous substring of `l`? -/
def containsSeq : List Char → List Char → Bool
  | [], target => leadsWith [] target
  | l@(_ :: cs), target => leadsWith l target || containsSeq cs target

/-- One draw of `Math.random()` is modelled by the base-36 digit list of its
fractional part as JS renders it: `x.toString(36)` is `"0." ++ d` for
`x ∈ (0,1)` with digit list `d` (no trailing zeros), and `"0"` for `x = 0`
(then `d = []`). `substring(2, 18)` therefore keeps the first 16 digits:
`d.take 16`. -/
def randomDraw36 (d : List Char) : List Char := d.take 16

/-- The random suffix of `generateApiKey`:
`Math.random().toString(36).substring(2, 18) + Math.random().toString(36).substring(2, 18)`
with the two draws' digit lists `d1`, `d2`. -/
def randomKeySuffix (d1 d2 : List Char) : List Char :=
  randomDraw36 d1 ++ randomDraw36 d2

/-- `generateApiKey(name)` from `githubSummarizerUtils.js`: the environment
tag is `'pk_live_'` when `name.toLowerCase().includes('prod')`, else
`'pk_dev_'`, followed by the random suffix. The name and the result are
character lists; `toLowerCase` is per-character `Char.toLower`. -/
def generateApiKey (name : List Char) (d1 d2 : List Char) : List Char :=
  (if containsSeq (name.map Char.toLower) "prod".toList
   then "pk_live_".toList else "pk_dev_".toList) ++ randomKeySuffix d1 d2

/-- The spec-side reading of "contains the substring prod in any casing":
some contiguous substring of `name` lowercases to `"prod"`. -/
def containsProdAnyCasing (name : List Char) : Prop :=
  ∃ a m b, name = a ++ m ++ b ∧ m.map Char.toLower = "prod".toList

/-!
Two concurrent gated calls on one record: the interleaving model for the
usage-accounting race. Each call, once past validation, performs two store
accesses in order: the `select` that captures `usage_count`, and the
`update` that writes `captured + 1`. The limit check runs in the handler on
the captured value. State is the stored counter of the single record; the
limit is a parameter.
-/

/-- Outcome of one gated call's usage accounting. -/
inductive UsageOutcome where
  /-- passed the check and wrote `current`. -/
  | ok (current : Nat)
  /-- failed the check: 429, no write. -/
  | limitExceeded
  deriving Repr, DecidableEq

/-- Progress of one in-flight gated call. -/
inductive ThreadPhase where
  /-- the select has not run yet. -/
  | start
  /-- the select captured `c`, the check passed, the update is pending. -/
  | willWrite (c : Nat)
  /-- finished. -/
  | finished (o : UsageOutcome)
  deriving Repr, DecidableEq

/-- One store access of a gated call against the counter `count`, with limit
`lim`: from `start`, the select captures `count` and the handler immediately
decides the check (`usage_count >= usage_limit` → 429 with no write); from
`willWrite c`, the update overwrites the counter with `c + 1` — the value
computed from the captured copy (`usage_count: apiKeyData.usage_count + 1`),
not an in-store increment. A finished call does nothing. -/
def threadStep (lim : Nat) (count : Nat) : ThreadPhase → ThreadPhase × Nat
  | .start =>
      if lim ≤ count then (.finished .limitExceeded, count)
      else (.willWrite count, count)
  | .willWrite c => (.finished (.ok (c + 1)), c + 1)
  | .finished o => (.finished o, count)

/-- Joint state of two concurrent gated calls and the stored counter. -/
structure ConcState where
  count : Nat
  t1 : ThreadPhase
  t2 : ThreadPhase
  deriving Repr, DecidableEq

/-- Run one scheduled step: `true` steps call 1, `false` steps call 2. -/
def concStep (lim : Nat) (s : ConcState) : Bool → ConcState
  | true =>
      let (p, c) := threadStep lim s.count s.t1
      { s with t1 := p, count := c }
  | false =>
      let (p, c) := threadStep lim s.count s.t2
      { s with t2 := p, count := c }

/-- Run a whole schedule (list of scheduling choices) from a state. -/
def runSchedule (lim : Nat) : ConcState → List Bool → ConcState
  | s, [] => s
  | s, b :: rest => runSchedule lim (concStep lim s b) rest

/-- The initial state of the concurrency scenario: both calls validated, the
stored counter at `c0`. -/
def concInit (c0 : Nat) : ConcState := ⟨c0, .start, .start⟩

/-!  ## Theorems for the claims  -/

/-- C4: for every validation request whose trimmed key matches an active
record, the Validator returns `valid=true` and a payload carrying every
field of the record (id, name, status, usageCount, usageLimit, createdAt,
updatedAt); the payload is independent of the record's `keyValue`, which is
never present in the response. -/
theorem C4_validator_success (s : String) (store : KeyStore) (r : ApiKeyRecord)
    (hs : s ≠ "") (ht : jsTrim s ≠ "")
    (hfind : lookupActive store (jsTrim s) = some r) :
    validatePOST (.str s) store =
      (.ok ⟨r.id, r.name, r.status, r.usage_count, r.usage_limit, r.created_at, r.updated_at⟩,
        [.selectActive (jsTrim s)]) ∧
    validateValidField (validatePOST (.str s) store).1 = true ∧
    validateStatus (validatePOST (.str s) store).1 = 200 ∧
    ∀ v : String, toValidatedData { r with key_value := v } = toValidatedData r := by
  have h : validatePOST (.str s) store =
      (.ok (toValidatedData r), [.selectActive (jsTrim s)]) := by
    simp [validatePOST, jsFieldOkString, hs, ht, hfind]
  refine ⟨?_, ?_, ?_, fun v => rfl⟩
  · rw [h]; rfl
  · rw [h]; rfl
  · rw [h]; rfl

/-- Witness for C4 at a concrete store and request. -/
theorem C4_validator_success_witness :
    validatePOST (.str " pk_dev_abc ") [⟨1, "demo", "pk_dev_abc", "active", 3, some 10, 11, 12⟩] =
      (.ok ⟨1, "demo", "active", 3, some 10, 11, 12⟩, [.selectActive "pk_dev_abc"]) := by
  have h := C4_validator_success " pk_dev_abc "
    [⟨1, "demo", "pk_dev_abc", "active", 3, some 10, 11, 12⟩]
    ⟨1, "demo", "pk_dev_abc", "active", 3, some 10, 11, 12⟩
    (by decide) (by decide) (by decide)
  exact h.1

/-- C5: a validation request whose key matches only an inactive record and
one whose key matches no record at all receive identical responses (status
and body): both hit the `PGRST116` branch, HTTP 404 with
`{valid:false, error:'Invalid API key'}`. An external caller cannot tell an
inactive key from a nonexistent one. -/
theorem C5_inactive_indistinguishable (s1 s2 : String) (store : KeyStore)
    (hs1 : s1 ≠ "") (ht1 : jsTrim s1 ≠ "") (hs2 : s2 ≠ "") (ht2 : jsTrim s2 ≠ "")
    (_hexist : ∃ r ∈ store, r.key_value = jsTrim s1 ∧ r.status = "inactive")
    (honly : ∀ r ∈ store, r.key_value = jsTrim s1 → r.status = "inactive")
    (hnone : ∀ r ∈ store, r.key_value ≠ jsTrim s2) :
    (validatePOST (.str s1) store).1 = (validatePOST (.str s2) store).1 ∧
    (validatePOST (.str s1) store).1 = .notFound ∧
    validateStatus (validatePOST (.str s1) store).1 = 404 := by
  have hl1 : lookupActive store (jsTrim s1) = none := by
    apply List.find?_eq_none.mpr
    intro r hr
    by_cases hk : r.key_value = jsTrim s1
    · have : r.status = "inactive" := honly r hr hk
      simp [this]
    · simp [hk]
  have hl2 : lookupActive store (jsTrim s2) = none := by
    apply List.find?_eq_none.mpr
    intro r hr
    simp [hnone r hr]
  have h1 : validatePOST (.str s1) store = (.notFound, [.selectActive (jsTrim s1)]) := by
    simp [validatePOST, jsFieldOkString, hs1, ht1, hl1]
  have h2 : validatePOST (.str s2) store = (.notFound, [.selectActive (jsTrim s2)]) := by
    simp [validatePOST, jsFieldOkString, hs2, ht2, hl2]
  rw [h1, h2]
  exact ⟨rfl, rfl, rfl⟩

/-- Witness for C5: a store holding one inactive record; the inactive key
and an unknown key get the same response. -/
theorem C5_inactive_indistinguishable_witness :
    (validatePOST (.str "pk_dev_old") [⟨1, "demo", "pk_dev_old", "inactive", 3, some 10, 11, 12⟩]).1 =
      (validatePOST (.str "pk_dev_ghost") [⟨1, "demo", "pk_dev_old", "inactive", 3, some 10, 11, 12⟩]).1 :=
  (C5_inactive_indistinguishable "pk_dev_old" "pk_dev_ghost"
    [⟨1, "demo", "pk_dev_old", "inactive", 3, some 10, 11, 12⟩]
    (by decide) (by decide) (by decide) (by decide)
    ⟨⟨1, "demo", "pk_dev_old", "inactive", 3, some 10, 11, 12⟩, by decide⟩
    (by decide) (by decide)).1

/-- C6: the Validator never mutates the key store: every database operation
it issues is read-only, and replaying its operations on the store leaves the
store unchanged — for every request shape and every store. -/
theorem C6_validator_no_mutation (apiKey : JsonField) (store : KeyStore) :
    ((validatePOST apiKey store).2.all (fun op => !dbOpWrites op)) = true ∧
    applyDbOps store (validatePOST apiKey store).2 = store := by
  rcases h : jsFieldOkString apiKey with _ | s
  · simp [validatePOST, h, applyDbOps]
  · by_cases ht : jsTrim s = ""
    · simp [validatePOST, h, ht, applyDbOps]
    · rcases hl : lookupActive store (jsTrim s) with _ | r
      · simp [validatePOST, h, ht, hl, applyDbOps, applyDbOp, dbOpWrites]
      · simp [validatePOST, h, ht, hl, applyDbOps, applyDbOp, dbOpWrites]

/-- C1: a gated request whose key validates to an active record with a
positive `usage_limit = l` and `usage_count ≥ l` gets `RateLimited`
(HTTP 429), with no downstream work and no mutation: the returned store is
the input store, for every outcome of the update call's environment. -/
theorem C1_rate_limited_no_mutation (a g : String) (store : KeyStore)
    (u : Bool) (now : Nat) (r : ApiKeyRecord) (l : Nat)
    (ha : a ≠ "") (ht : jsTrim a ≠ "") (hg : g ≠ "") (htg : jsTrim g ≠ "")
    (hfind : lookupActive store (jsTrim a) = some r)
    (hlim : r.usage_limit = some l) (hpos : 0 < l) (hge : l ≤ r.usage_count) :
    gatewayPOST (.str a) (.str g) store u now = (.rateLimited, store) ∧
    gatewayStatus (gatewayPOST (.str a) (.str g) store u now).1 = 429 := by
  have hne : l ≠ 0 := Nat.pos_iff_ne_zero.mp hpos
  have hlc : limitCheck r = true := by
    simp [limitCheck, hlim, hne, hge]
  have h : gatewayPOST (.str a) (.str g) store u now = (.rateLimited, store) := by
    simp [gatewayPOST, jsFieldOkString, ha, hg, ht, htg, hfind, hlc]
  exact ⟨h, by rw [h]; rfl⟩

/-- Witness for C1 at a concrete exhausted key. -/
theorem C1_rate_limited_no_mutation_witness :
    gatewayPOST (.str "pk_dev_abc") (.str "https://github.com/u/r")
        [⟨1, "demo", "pk_dev_abc", "active", 5, some 5, 11, 12⟩] true 99 =
      (.rateLimited, [⟨1, "demo", "pk_dev_abc", "active", 5, some 5, 11, 12⟩]) :=
  (C1_rate_limited_no_mutation "pk_dev_abc" "https://github.com/u/r"
    [⟨1, "demo", "pk_dev_abc", "active", 5, some 5, 11, 12⟩] true 99
    ⟨1, "demo", "pk_dev_abc", "active", 5, some 5, 11, 12⟩ 5
    (by decide) (by decide) (by decide) (by decide) (by decide)
    (by decide) (by decide) (by decide)).1

/-- C2 counterexample: the claim as stated fails. A request whose key
validates to an active record with `usage_count < usage_limit` but whose
(non-empty) `githubUrl` does not match the GitHub-repository pattern is
answered with HTTP 400 and no increment: the URL-format check (STEP 8 of
the route) sits between the limit check and the gated action. -/
theorem C2_counterexample :
    lookupActive [⟨1, "demo", "pk_dev_abc", "active", 3, some 10, 11, 12⟩] "pk_dev_abc" =
      some ⟨1, "demo", "pk_dev_abc", "active", 3, some 10, 11, 12⟩ ∧
    (3 : Nat) < 10 ∧
    gatewayPOST (.str "pk_dev_abc") (.str "https://example.com/x")
        [⟨1, "demo", "pk_dev_abc", "active", 3, some 10, 11, 12⟩] true 99 =
      (.badRequest "Invalid GitHub URL format. Must be a valid GitHub repository URL.",
        [⟨1, "demo", "pk_dev_abc", "active", 3, some 10, 11, 12⟩]) := by
  refine ⟨by decide, by decide, by decide⟩

/-- C2 (amended): for every gated request whose key validates to an active
record with `usage_count < usage_limit`, whose `githubUrl` matches the
GitHub-repository pattern, and whose usage-count update persists, the
route stores `usage_count + 1` with `updated_at := now` for that record and
returns HTTP 200 with usage snapshot `{current := old + 1, limit}`. -/
theorem C2_increment_and_success (a g : String) (store : KeyStore)
    (now : Nat) (r : ApiKeyRecord) (l : Nat)
    (ha : a ≠ "") (ht : jsTrim a ≠ "") (hg : g ≠ "") (htg : jsTrim g ≠ "")
    (hfind : lookupActive store (jsTrim a) = some r)
    (hlim : r.usage_limit = some l) (hlt : r.usage_count < l)
    (hurl : githubUrlPatternTest (jsTrim g) = true) :
    gatewayPOST (.str a) (.str g) store true now =
      (.ok r.name (jsTrim g) (r.usage_count + 1) (some l),
        updateUsage store r.id (r.usage_count + 1) now) ∧
    gatewayStatus (gatewayPOST (.str a) (.str g) store true now).1 = 200 := by
  have hlc : limitCheck r = false := by
    rcases Nat.eq_zero_or_pos l with h0 | hpos
    · simp [limitCheck, hlim, h0]
    · simp [limitCheck, hlim, Nat.pos_iff_ne_zero.mp hpos, Nat.not_le.mpr hlt]
  have h : gatewayPOST (.str a) (.str g) store true now =
      (.ok r.name (jsTrim g) (r.usage_count + 1) r.usage_limit,
        updateUsage store r.id (r.usage_count + 1) now) := by
    simp [gatewayPOST, jsFieldOkString, ha, hg, ht, htg, hfind, hlc, hurl]
  rw [hlim] at h
  exact ⟨h, by rw [h]; rfl⟩

/-- Witness for the amended C2: a concrete in-limit request to a concrete
store; the record's counter becomes 4 and `updated_at` becomes 99. -/
theorem C2_increment_and_success_witness :
    gatewayPOST (.str "pk_dev_abc") (.str "https://github.com/u/r")
        [⟨1, "demo", "pk_dev_abc", "active", 3, some 10, 11, 12⟩] true 99 =
      (.ok "demo" "https://github.com/u/r" 4 (some 10),
        [⟨1, "demo", "pk_dev_abc", "active", 4, some 10, 11, 99⟩]) := by
  have h := (C2_increment_and_success "pk_dev_abc" "https://github.com/u/r"
    [⟨1, "demo", "pk_dev_abc", "active", 3, some 10, 11, 12⟩] 99
    ⟨1, "demo", "pk_dev_abc", "active", 3, some 10, 11, 12⟩ 10
    (by decide) (by decide) (by decide) (by decide) (by decide)
    (by decide) (by decide) (by decide)).1
  rw [h]
  decide

/-- C9: when the key validates, the limit check passes and the URL-format
check passes, but persisting the usage increment fails (`updateOk = false`),
the route still returns HTTP 200 with the result and the usage snapshot
`{current := old + 1, limit}` — and the store is left unchanged. -/
theorem C9_fail_open_on_accounting (a g : String) (store : KeyStore)
    (now : Nat) (r : ApiKeyRecord)
    (ha : a ≠ "") (ht : jsTrim a ≠ "") (hg : g ≠ "") (htg : jsTrim g ≠ "")
    (hfind : lookupActive store (jsTrim a) = some r)
    (hlc : limitCheck r = false)
    (hurl : githubUrlPatternTest (jsTrim g) = true) :
    gatewayPOST (.str a) (.str g) store false now =
      (.ok r.name (jsTrim g) (r.usage_count + 1) r.usage_limit, store) ∧
    gatewayStatus (gatewayPOST (.str a) (.str g) store false now).1 = 200 := by
  have h : gatewayPOST (.str a) (.str g) store false now =
      (.ok r.name (jsTrim g) (r.usage_count + 1) r.usage_limit, store) := by
    simp [gatewayPOST, jsFieldOkString, ha, hg, ht, htg, hfind, hlc, hurl]
  exact ⟨h, by rw [h]; rfl⟩

/-- Witness for C9: the update call fails, the response is still the 200
success body, and the stored record keeps `usage_count = 3`. -/
theorem C9_fail_open_on_accounting_witness :
    gatewayPOST (.str "pk_dev_abc") (.str "https://github.com/u/r")
        [⟨1, "demo", "pk_dev_abc", "active", 3, some 10, 11, 12⟩] false 99 =
      (.ok "demo" "https://github.com/u/r" 4 (some 10),
        [⟨1, "demo", "pk_dev_abc", "active", 3, some 10, 11, 12⟩]) :=
  (C9_fail_open_on_accounting "pk_dev_abc" "https://github.com/u/r"
    [⟨1, "demo", "pk_dev_abc", "active", 3, some 10, 11, 12⟩] 99
    ⟨1, "demo", "pk_dev_abc", "active", 3, some 10, 11, 12⟩
    (by decide) (by decide) (by decide) (by decide) (by decide)
    (by decide) (by decide)).1

/-- C10: for a request authenticated by an active record whose
`usage_limit` is `null` or `0` (falsy in JS, so STEP 7's check is skipped),
the route never answers 429 — whatever `usage_count`, the URL field, the
update environment — and whenever the URL-format check passes the usage
increment proceeds exactly as for an in-limit key. -/
theorem C10_null_or_zero_limit_unlimited (a : String) (store : KeyStore)
    (now : Nat) (r : ApiKeyRecord)
    (ha : a ≠ "") (ht : jsTrim a ≠ "")
    (hfind : lookupActive store (jsTrim a) = some r)
    (hlim : r.usage_limit = none ∨ r.usage_limit = some 0) :
    (∀ (g : JsonField) (u : Bool),
        (gatewayPOST (.str a) g store u now).1 ≠ .rateLimited) ∧
    (∀ g : String, g ≠ "" → jsTrim g ≠ "" → githubUrlPatternTest (jsTrim g) = true →
        gatewayPOST (.str a) (.str g) store true now =
          (.ok r.name (jsTrim g) (r.usage_count + 1) r.usage_limit,
            updateUsage store r.id (r.usage_count + 1) now)) := by
  have hlc : limitCheck r = false := by
    rcases hlim with h | h <;> simp [limitCheck, h]
  have ha' : jsFieldOkString (.str a) = some a := by simp [jsFieldOkString, ha]
  constructor
  · intro g u
    rcases hg : jsFieldOkString g with _ | g'
    · simp [gatewayPOST, ha', hg]
    · by_cases htg : jsTrim g' = ""
      · simp [gatewayPOST, ha', ht, hg, htg]
      · by_cases hurl : githubUrlPatternTest (jsTrim g') = true
        · simp [gatewayPOST, ha', ht, hg, htg, hfind, hlc, hurl]
        · rw [Bool.not_eq_true] at hurl
          simp [gatewayPOST, ha', ht, hg, htg, hfind, hlc, hurl]
  · intro g hg htg hurl
    simp [gatewayPOST, jsFieldOkString, ha, ht, hg, htg, hfind, hlc, hurl]

/-- Witness for C10: a record with `usage_limit = null` and a huge counter
is not rate-limited and still gets incremented. -/
theorem C10_null_or_zero_limit_unlimited_witness :
    (gatewayPOST (.str "pk_dev_abc") (.str "https://example.com/x")
        [⟨1, "demo", "pk_dev_abc", "active", 1000000, none, 11, 12⟩] true 99).1 ≠
      .rateLimited ∧
    gatewayPOST (.str "pk_dev_abc") (.str "https://github.com/u/r")
        [⟨1, "demo", "pk_dev_abc", "active", 1000000, none, 11, 12⟩] true 99 =
      (.ok "demo" "https://github.com/u/r" 1000001 none,
        [⟨1, "demo", "pk_dev_abc", "active", 1000001, none, 11, 99⟩]) := by
  have h := C10_null_or_zero_limit_unlimited "pk_dev_abc"
    [⟨1, "demo", "pk_dev_abc", "active", 1000000, none, 11, 12⟩] 99
    ⟨1, "demo", "pk_dev_abc", "active", 1000000, none, 11, 12⟩
    (by decide) (by decide) (by decide) (Or.inl rfl)
  refine ⟨h.1 (.str "https://example.com/x") true, ?_⟩
  have h2 := h.2 "https://github.com/u/r" (by decide) (by decide) (by decide)
  rw [h2]
  decide

/-- C3: the usage-accounting race. With `usage_limit = 1` and
`usage_count = 0`, the strictly sequential interleaving gives exactly one
success and one `LimitExceeded`, but the interleaving that runs both selects
before either update — the read-then-write sequence of the route is not
atomic — finishes with BOTH calls succeeding. Each writes the value it
computed from its captured copy (`0 + 1`), so the final counter is `1` while
two units of work were granted: the code contradicts the claim's
"exactly one success and one LimitExceeded". -/
theorem C3_usage_race_both_succeed :
    runSchedule 1 (concInit 0) [true, true, false, false] =
      ⟨1, .finished (.ok 1), .finished .limitExceeded⟩ ∧
    runSchedule 1 (concInit 0) [true, false, true, false] =
      ⟨1, .finished (.ok 1), .finished (.ok 1)⟩ := by
  constructor <;> rfl

/-- C8 counterexample: the random suffix is not always ≥ 32 characters.
`Math.random()` may return `0.5`, whose base-36 rendering is `"0.i"`, so
`substring(2, 18)` is the single character `"i"`; two such draws give a
suffix of length 2. -/
theorem C8_counterexample :
    (randomKeySuffix ['i'] ['i']).length = 2 ∧
    ¬ 32 ≤ (randomKeySuffix ['i'] ['i']).length := by
  decide

/-- C8 (amended): the random suffix is at most 32 characters, and is exactly
32 whenever each of the two draws carries at least 16 base-36 fraction
digits (the typical case for a random double). -/
theorem C8_suffix_length (d1 d2 : List Char) :
    (randomKeySuffix d1 d2).length ≤ 32 ∧
    (16 ≤ d1.length → 16 ≤ d2.length → (randomKeySuffix d1 d2).length = 32) := by
  constructor
  · simp only [randomKeySuffix, randomDraw36, List.length_append, List.length_take]
    omega
  · intro h1 h2
    simp only [randomKeySuffix, randomDraw36, List.length_append, List.length_take]
    omega

/-- Witness for the amended C8 at two full-length draws. -/
theorem C8_suffix_length_witness :
    (randomKeySuffix (List.replicate 16 'a') (List.replicate 16 'b')).length = 32 :=
  (C8_suffix_length (List.replicate 16 'a') (List.replicate 16 'b')).2
    (by simp) (by simp)

/-- `leadsWith l t` holds exactly when `t` heads `l`. -/
theorem leadsWith_iff (t : List Char) : ∀ l, leadsWith l t = true ↔ ∃ b, l = t ++ b := by
  induction t with
  | nil => intro l; simp [leadsWith]
  | cons d ds ih =>
    intro l
    cases l with
    | nil => simp [leadsWith]
    | cons c cs =>
      simp only [leadsWith, Bool.and_eq_true, beq_iff_eq, ih, List.cons_append,
        List.cons.injEq]
      constructor
      · rintro ⟨rfl, b, rfl⟩; exact ⟨b, rfl, rfl⟩
      · rintro ⟨b, rfl, rfl⟩; exact ⟨rfl, b, rfl⟩

/-- `containsSeq l t` holds exactly when `t` occurs contiguously in `l`. -/
theorem containsSeq_iff (t : List Char) : ∀ l, containsSeq l t = true ↔ ∃ a b, l = a ++ t ++ b := by
  intro l
  induction l with
  | nil =>
    simp only [containsSeq, leadsWith_iff]
    constructor
    · rintro ⟨b, h⟩; exact ⟨[], b, by simpa using h⟩
    · rintro ⟨a, b, h⟩
      rcases List.append_eq_nil.mp h.symm with ⟨h1, rfl⟩
      rcases List.append_eq_nil.mp h1 with ⟨rfl, rfl⟩
      exact ⟨[], rfl⟩
  | cons c cs ih =>
    simp only [containsSeq, Bool.or_eq_true, leadsWith_iff, ih]
    constructor
    · rintro (⟨b, h⟩ | ⟨a, b, rfl⟩)
      · exact ⟨[], b, by simpa using h⟩
      · exact ⟨c :: a, b, by simp⟩
    · rintro ⟨a, b, h⟩
      cases a with
      | nil => left; exact ⟨b, by simpa using h⟩
      | cons x xs =>
        right
        rcases List.cons_eq_cons.mp (by simpa using h) with ⟨rfl, h2⟩
        exact ⟨xs, b, by simpa using h2⟩

/-- A target occurs in a mapped list exactly when some contiguous substring
of the original maps onto it. -/
theorem containsSeq_map_iff (f : Char → Char) (l t : List Char) :
    containsSeq (l.map f) t = true ↔
      ∃ a m b, l = a ++ m ++ b ∧ m.map f = t := by
  rw [containsSeq_iff]
  constructor
  · rintro ⟨a, b, h⟩
    rw [List.append_assoc] at h
    rcases List.map_eq_append_iff.mp h with ⟨a', rest, rfl, ha', hrest⟩
    rcases List.map_eq_append_iff.mp hrest with ⟨m, b', rfl, hm, hb'⟩
    exact ⟨a', m, b', by simp, hm⟩
  · rintro ⟨a, m, b, rfl, hm⟩
    exact ⟨a.map f, b.map f, by simp [hm]⟩

/-- A list headed by `t` satisfies `leadsWith` for `t`. -/
theorem leadsWith_append_self (t b : List Char) : leadsWith (t ++ b) t = true := by
  induction t with
  | nil => simp [leadsWith]
  | cons c cs ih => simp [leadsWith, ih]

/-- A key tagged `pk_dev_` never starts with `pk_live_`: the two tags differ
at their fourth character. -/
theorem leadsWith_dev_not_live (s : List Char) :
    leadsWith ("pk_dev_".toList ++ s) "pk_live_".toList = false := rfl

/-- C7: `generateApiKey` yields a key starting with `pk_live_` exactly when
the name contains the substring "prod" in some casing (some contiguous part
of the name lowercases to `"prod"`), and a key starting with `pk_dev_`
otherwise — for every name and every outcome of the two random draws. -/
theorem C7_env_tag (name d1 d2 : List Char) :
    (leadsWith (generateApiKey name d1 d2) "pk_live_".toList = true ↔
      containsProdAnyCasing name) ∧
    (¬ containsProdAnyCasing name →
      leadsWith (generateApiKey name d1 d2) "pk_dev_".toList = true) := by
  have hiff : containsSeq (name.map Char.toLower) "prod".toList = true ↔
      containsProdAnyCasing name := containsSeq_map_iff Char.toLower name "prod".toList
  by_cases h : containsSeq (name.map Char.toLower) "prod".toList = true
  · have hkey : generateApiKey name d1 d2 = "pk_live_".toList ++ randomKeySuffix d1 d2 := by
      unfold generateApiKey
      rw [if_pos h]
    refine ⟨?_, fun hn => absurd (hiff.mp h) hn⟩
    rw [hkey]
    exact iff_of_true (leadsWith_append_self _ _) (hiff.mp h)
  · have hkey : generateApiKey name d1 d2 = "pk_dev_".toList ++ randomKeySuffix d1 d2 := by
      unfold generateApiKey
      rw [if_neg h]
    constructor
    · rw [hkey, leadsWith_dev_not_live]
      exact iff_of_false (by simp) (fun hc => h (hiff.mpr hc))
    · intro _
      rw [hkey]
      exact leadsWith_append_self _ _

/-- Witness for C7: a name containing "PROD" gets the live tag; "demo"
(with no casing of "prod" inside) gets the dev tag. -/
theorem C7_env_tag_witness :
    leadsWith (generateApiKey "My PROD key".toList ['i'] ['i']) "pk_live_".toList = true ∧
    leadsWith (generateApiKey "demo".toList ['i'] ['i']) "pk_dev_".toList = true := by
  constructor
  · exact (C7_env_tag "My PROD key".toList ['i'] ['i']).1.mpr
      ⟨"My ".toList, "PROD".toList, " key".toList, by decide, by decide⟩
  · exact (C7_env_tag "demo".toList ['i'] ['i']).2
      (fun hc => absurd ((containsSeq_map_iff Char.toLower "demo".toList "prod".toList).mpr hc)
        (by decide))
